import Mathlib

/-!
Verification of the `snip-link` URL shortener core (Go, Redis-backed).

The development shallowly embeds the two core components:

* the Record Store Adapter (`internal/redis`, package `redisdb`): operations
  `CreateShortURL`, `GetLongURL`, `IncrementVisits`, `GetStats`,
  `DeleteShortURL`, `ShortCodeExists`, all keyed through `shortURLKey`;
* the Code Resolver (`internal/server`): `resolveShortCode`,
  `generateShortCode` and the alias pattern.

The Redis client is modelled as a pure state: an association list of keys,
each key holding a field hash and an optional remaining TTL.  The Redis
commands the adapter issues (HSETNX, HSET, HGET, HGETALL, HINCRBY, EXPIRE,
TTL, DEL, EXISTS) are given their documented semantics on that state.
Transport failures cannot occur in the pure model, so the `StoreError`
branches that remain are exactly the value-level ones (parse failures in
`GetStats`, non-integer fields in HINCRBY).

Go's `time.Time` values are modelled as natural numbers and the
RFC3339Nano format/parse pair as an injective decimal encoding
(`formatRFC3339Nano` / `parseRFC3339Nano`): parsing fails on the empty
string and on any non-digit content, mirroring that `time.Parse` fails on
a missing or corrupt `created_at` field.  `time.Duration` (the TTL) is an
integer, as in Go.  The `crypto/rand` source is modelled as a stream of
uniform draws `Nat → Fin 62`, which is the documented contract of
`rand.Int(rand.Reader, 62)`.
-/

namespace UrlShortner

/-! ### Decimal timestamps: model of RFC3339Nano formatting and parsing -/

/-- Decimal digit character for a value below ten. -/
def digitChar (k : Nat) : Char :=
  match k with
  | 0 => '0' | 1 => '1' | 2 => '2' | 3 => '3' | 4 => '4'
  | 5 => '5' | 6 => '6' | 7 => '7' | 8 => '8' | _ => '9'

/-- Value of a decimal digit character, `none` on a non-digit. -/
def digitVal (c : Char) : Option Nat :=
  if c == '0' then some 0 else if c == '1' then some 1
  else if c == '2' then some 2 else if c == '3' then some 3
  else if c == '4' then some 4 else if c == '5' then some 5
  else if c == '6' then some 6 else if c == '7' then some 7
  else if c == '8' then some 8 else if c == '9' then some 9
  else none

/-- Most-significant-first decimal digits of `n`; `fuel` bounds recursion. -/
def toDecimal (fuel : Nat) (n : Nat) : List Char :=
  match fuel with
  | 0 => []
  | fuel + 1 =>
    if n < 10 then [digitChar n]
    else toDecimal fuel (n / 10) ++ [digitChar (n % 10)]

/-- Accumulating decimal parser over a character list; fails on non-digits. -/
def parseLoop (acc : Nat) : List Char → Option Nat
  | [] => some acc
  | c :: cs =>
    match digitVal c with
    | none => none
    | some v => parseLoop (acc * 10 + v) cs

/-- Model of Go `time.Time.Format(time.RFC3339Nano)`: timestamps are
nanosecond counts rendered in decimal. -/
def formatRFC3339Nano (t : Nat) : String :=
  String.mk (toDecimal (t + 1) t)

/-- Model of Go `time.Parse(time.RFC3339Nano, s)`: succeeds exactly on the
strings produced by `formatRFC3339Nano`; in particular it fails on the
empty string (a missing hash field) and on non-digit content. -/
def parseRFC3339Nano (s : String) : Option Nat :=
  match s.data with
  | [] => none
  | c :: cs => parseLoop 0 (c :: cs)

/-- Model of Go `strconv.ParseInt(s, 10, 64)` for the `visits` field. -/
def parseInt (s : String) : Option Int :=
  match s.data with
  | [] => none
  | '-' :: cs =>
    match cs with
    | [] => none
    | _ => (parseLoop 0 cs).map (fun n => -(n : Int))
  | cs => (parseLoop 0 cs).map (fun n => (n : Int))

/-- Decimal rendering of an integer, as Redis stores counter fields. -/
def formatInt (i : Int) : String :=
  if i < 0 then String.mk ('-' :: toDecimal (i.natAbs + 1) i.natAbs)
  else String.mk (toDecimal (i.natAbs + 1) i.natAbs)

/-! ### The Redis state model -/

/-- A Redis hash: an association list from field names to string values. -/
abbrev RHash := List (String × String)

/-- Field lookup in a hash (HGET within one key). -/
def hashGet (h : RHash) (f : String) : Option String :=
  match h with
  | [] => none
  | (k, v) :: t => if k == f then some v else hashGet t f

/-- Field write in a hash, overwriting an existing field in place. -/
def hashSet (h : RHash) (f v : String) : RHash :=
  match h with
  | [] => [(f, v)]
  | (k, w) :: t => if k == f then (k, v) :: t else (k, w) :: hashSet t f v

/-- One Redis key: its hash and its remaining TTL (`none` = no expiry,
in which case the TTL command answers `-1`). -/
structure RKey where
  hash : RHash
  ttl : Option Int
deriving DecidableEq, Repr

/-- The whole Redis database: an association list of keys. -/
structure Store where
  keys : List (String × RKey)
deriving DecidableEq, Repr

/-- The empty database. -/
def Store.empty : Store := ⟨[]⟩

/-- Key lookup in an association list of keys. -/
def lookupKeys : List (String × RKey) → String → Option RKey
  | [], _ => none
  | (k', r) :: t, k => if k' == k then some r else lookupKeys t k

/-- Key write in an association list of keys, overwriting in place. -/
def updateKeys (k : String) (r : RKey) : List (String × RKey) → List (String × RKey)
  | [] => [(k, r)]
  | (k', r') :: t => if k' == k then (k', r) :: t else (k', r') :: updateKeys k r t

/-- Key removal in an association list of keys. -/
def removeKeys (k : String) : List (String × RKey) → List (String × RKey)
  | [] => []
  | (k', r') :: t => if k' == k then t else (k', r') :: removeKeys k t

/-- Key lookup. -/
def Store.lookup (st : Store) (k : String) : Option RKey :=
  lookupKeys st.keys k

/-- Key write, overwriting an existing key in place. -/
def Store.update (st : Store) (k : String) (r : RKey) : Store :=
  ⟨updateKeys k r st.keys⟩

/-- Key removal. -/
def Store.remove (st : Store) (k : String) : Store :=
  ⟨removeKeys k st.keys⟩

/-- HSETNX: set `f := v` under key `k` only if field `f` does not exist;
creates the key when absent.  Answers whether the field was written. -/
def hsetnx (st : Store) (k f v : String) : Bool × Store :=
  match st.lookup k with
  | none => (true, st.update k ⟨[(f, v)], none⟩)
  | some r =>
    match hashGet r.hash f with
    | some _ => (false, st)
    | none => (true, st.update k ⟨hashSet r.hash f v, r.ttl⟩)

/-- HSET of several fields; creates the key when absent. -/
def hset (st : Store) (k : String) (fvs : List (String × String)) : Store :=
  let r := (st.lookup k).getD ⟨[], none⟩
  st.update k ⟨fvs.foldl (fun h p => hashSet h p.1 p.2) r.hash, r.ttl⟩

/-- EXPIRE: set the remaining TTL of an existing key; a non-positive
duration deletes the key, as in Redis.  Answers whether a key was found. -/
def expireCmd (st : Store) (k : String) (d : Int) : Bool × Store :=
  match st.lookup k with
  | none => (false, st)
  | some r =>
    if d ≤ 0 then (true, st.remove k)
    else (true, st.update k ⟨r.hash, some d⟩)

/-- HGET: `none` is the `redis.Nil` reply (key or field absent). -/
def hget (st : Store) (k f : String) : Option String :=
  match st.lookup k with
  | none => none
  | some r => hashGet r.hash f

/-- HGETALL: the whole hash, empty when the key is absent. -/
def hgetallCmd (st : Store) (k : String) : RHash :=
  ((st.lookup k).getD ⟨[], none⟩).hash

/-- HINCRBY: add `incr` to an integer field, treating an absent key or
field as 0 and creating it; `none` models the Redis error reply when the
stored value is not an integer. -/
def hincrby (st : Store) (k f : String) (incr : Int) : Option (Int × Store) :=
  let r := (st.lookup k).getD ⟨[], none⟩
  match parseInt ((hashGet r.hash f).getD "0") with
  | none => none
  | some n =>
    some (n + incr, st.update k ⟨hashSet r.hash f (formatInt (n + incr)), r.ttl⟩)

/-- TTL: `-2` when the key is absent, `-1` when it has no expiry,
otherwise the remaining duration. -/
def ttlCmd (st : Store) (k : String) : Int :=
  match st.lookup k with
  | none => -2
  | some r => r.ttl.getD (-1)

/-- DEL of a single key: how many keys were removed, and the new state. -/
def delCmd (st : Store) (k : String) : Nat × Store :=
  match st.lookup k with
  | none => (0, st)
  | some _ => (1, st.remove k)

/-- EXISTS of a single key. -/
def existsCmd (st : Store) (k : String) : Nat :=
  match st.lookup k with
  | none => 0
  | some _ => 1

/-! ### The Record Store Adapter (`internal/redis`, package `redisdb`) -/

/-- The error values the adapter surfaces: the sentinels `ErrNotFound`
and `ErrConflict`, and wrapped store-level failures. -/
inductive SvcError where
  | notFound
  | conflict
  | storeError (msg : String)
deriving DecidableEq, Repr

/-- Key derivation: `shortURLKeyPrefix + code`. -/
def shortURLKey (code : String) : String :=
  "short:url:" ++ code

/-- `service.CreateShortURL`: HSETNX of the `url` field (the atomic
create-if-absent step; `false` means `ErrConflict`), then HSET of
`created_at` and `visits` as a second step, then EXPIRE when `ttl > 0`.
`now` is the creation instant `time.Now().UTC()`. -/
def CreateShortURL (st : Store) (now : Nat) (code longURL : String) (ttl : Int) :
    Except SvcError Unit × Store :=
  let key := shortURLKey code
  let createdAt := formatRFC3339Nano now
  let p := hsetnx st key "url" longURL
  if !p.1 then (Except.error SvcError.conflict, p.2)
  else
    let st2 := hset p.2 key [("created_at", createdAt), ("visits", "0")]
    if ttl > 0 then (Except.ok (), (expireCmd st2 key ttl).2)
    else (Except.ok (), st2)

/-- `service.GetLongURL`: HGET of the `url` field; `redis.Nil` maps to
`ErrNotFound`. -/
def GetLongURL (st : Store) (code : String) : Except SvcError String :=
  match hget st (shortURLKey code) "url" with
  | none => Except.error SvcError.notFound
  | some url => Except.ok url

/-- `service.ShortCodeExists`: EXISTS of the key compared with 1. -/
def ShortCodeExists (st : Store) (code : String) : Bool :=
  existsCmd st (shortURLKey code) == 1

/-- `service.IncrementVisits`: explicit existence check first
(`ErrNotFound` on an absent code), then HINCRBY of `visits` by 1. -/
def IncrementVisits (st : Store) (code : String) : Except SvcError Int × Store :=
  if !ShortCodeExists st code then (Except.error SvcError.notFound, st)
  else
    match hincrby st (shortURLKey code) "visits" 1 with
    | none => (Except.error (SvcError.storeError "increment visits"), st)
    | some (v, st') => (Except.ok v, st')

/-- The stats record `redisdb.URLStats`. -/
structure URLStats where
  code : String
  longURL : String
  createdAt : Nat
  visits : Int
  expiresAt : Option Int
deriving DecidableEq, Repr

/-- `service.GetStats`: HGETALL (empty hash maps to `ErrNotFound`), parse
`created_at` and `visits` (failures surface as wrapped store errors, not
`ErrNotFound`), read the remaining TTL, and derive `expiresAt` as
`now + remaining TTL` only when that TTL is strictly positive. -/
def GetStats (st : Store) (now : Nat) (code : String) : Except SvcError URLStats :=
  let key := shortURLKey code
  let values := hgetallCmd st key
  if values.length == 0 then Except.error SvcError.notFound
  else
    match parseRFC3339Nano ((hashGet values "created_at").getD "") with
    | none => Except.error (SvcError.storeError "parse created_at")
    | some createdAt =>
      match parseInt ((hashGet values "visits").getD "") with
      | none => Except.error (SvcError.storeError "parse visits")
      | some visits =>
        let ttl := ttlCmd st key
        Except.ok
          { code := code
            longURL := (hashGet values "url").getD ""
            createdAt := createdAt
            visits := visits
            expiresAt := if ttl > 0 then some ((now : Int) + ttl) else none }

/-- `service.DeleteShortURL`: DEL of the key; zero keys removed maps to
`ErrNotFound`. -/
def DeleteShortURL (st : Store) (code : String) : Except SvcError Unit × Store :=
  let p := delCmd st (shortURLKey code)
  if p.1 == 0 then (Except.error SvcError.notFound, p.2)
  else (Except.ok (), p.2)

/-! ### The Code Resolver (`internal/server`) -/

/-- The code length constant `shortCodeLength`. -/
def shortCodeLength : Nat := 7

/-- The retry bound `maxCodeAttempts`. -/
def maxCodeAttempts : Nat := 10

/-- The errors `resolveShortCode` can signal: the validation error
(`custom_alias must match ...`), `database.ErrConflict`, and the
exhaustion error (`failed to allocate unique short code`). -/
inductive ResolveError where
  | validationError
  | conflictError
  | exhaustedError
deriving DecidableEq, Repr

/-- One character of the class `[a-zA-Z0-9_-]`. -/
def aliasChar (c : Char) : Bool :=
  c.isAlpha || c.isDigit || c == '_' || c == '-'

/-- The regular expression `^[a-zA-Z0-9_-]{4,32}$` as a predicate. -/
def aliasPattern (s : String) : Bool :=
  decide (4 ≤ s.length) && decide (s.length ≤ 32) && s.data.all aliasChar

/-- The 62-symbol alphabet of `generateShortCode`. -/
def alphabet : String :=
  "0123456789abcdefghijklmnopqrstuvwxyzABCDEFGHIJKLMNOPQRSTUVWXYZ"

/-- `generateShortCode`: one character per draw, each character being the
alphabet symbol at the drawn index — the draw is used directly, with no
further arithmetic on it.  `d` is the `crypto/rand` stream (uniform draws
below 62, the contract of `rand.Int(rand.Reader, 62)`) and `off` the
position in the stream where this invocation starts consuming. -/
def generateShortCode (len : Nat) (d : Nat → Fin 62) (off : Nat) : String :=
  String.mk ((List.range len).map (fun i => alphabet.data.getD (d (off + i)).val ' '))

/-- The generation loop of `resolveShortCode`: attempt `i` with `fuel`
attempts left; each attempt draws `shortCodeLength` fresh values, checks
existence, and returns the first candidate found absent. -/
def resolveLoop (st : Store) (d : Nat → Fin 62) (i : Nat) : Nat → Except ResolveError String
  | 0 => Except.error ResolveError.exhaustedError
  | fuel + 1 =>
    let candidate := generateShortCode shortCodeLength d (shortCodeLength * i)
    if ShortCodeExists st candidate then resolveLoop st d (i + 1) fuel
    else Except.ok candidate

/-- `Server.resolveShortCode`: a non-empty custom alias is validated
against the pattern, checked for existence, and returned unchanged;
an empty alias enters the bounded random-generation loop. -/
def resolveShortCode (st : Store) (customAlias : String) (d : Nat → Fin 62) :
    Except ResolveError String :=
  if customAlias != "" then
    if !aliasPattern customAlias then Except.error ResolveError.validationError
    else if ShortCodeExists st customAlias then Except.error ResolveError.conflictError
    else Except.ok customAlias
  else
    resolveLoop st d 0 maxCodeAttempts

/-! ### Basic lemmas about hashes and the key space -/

theorem hashGet_hashSet_self (h : RHash) (f v : String) :
    hashGet (hashSet h f v) f = some v := by
  induction h with
  | nil => simp [hashSet, hashGet]
  | cons p t ih =>
    obtain ⟨k, w⟩ := p
    by_cases hk : k = f
    · simp [hashSet, hashGet, hk]
    · simp [hashSet, hashGet, hk, ih]

theorem hashGet_hashSet_ne (h : RHash) {f g : String} (hne : g ≠ f) (v : String) :
    hashGet (hashSet h g v) f = hashGet h f := by
  induction h with
  | nil => simp [hashSet, hashGet, hne]
  | cons p t ih =>
    obtain ⟨k, w⟩ := p
    by_cases hk : k = g
    · subst hk
      simp [hashSet, hashGet, hne]
    · simp [hashSet, hashGet, hk, ih]

theorem hashGet_nil (f : String) : hashGet [] f = none := rfl

theorem lookupKeys_update_self (l : List (String × RKey)) (k : String) (r : RKey) :
    lookupKeys (updateKeys k r l) k = some r := by
  induction l with
  | nil => simp [updateKeys, lookupKeys]
  | cons p t ih =>
    obtain ⟨k', r'⟩ := p
    by_cases hk : k' = k
    · simp [updateKeys, lookupKeys, hk]
    · simp [updateKeys, lookupKeys, hk, ih]

theorem updateKeys_updateKeys (l : List (String × RKey)) (k : String) (r r' : RKey) :
    updateKeys k r' (updateKeys k r l) = updateKeys k r' l := by
  induction l with
  | nil => simp [updateKeys]
  | cons p t ih =>
    obtain ⟨k', r''⟩ := p
    by_cases hk : k' = k
    · simp [updateKeys, hk]
    · simp [updateKeys, hk, ih]

theorem Store.lookup_update_self (st : Store) (k : String) (r : RKey) :
    (st.update k r).lookup k = some r :=
  lookupKeys_update_self st.keys k r

theorem Store.update_update (st : Store) (k : String) (r r' : RKey) :
    (st.update k r).update k r' = st.update k r' :=
  congrArg Store.mk (updateKeys_updateKeys st.keys k r r')

/-! ### Round trip of the timestamp encoding -/

theorem parseLoop_append (acc : Nat) (xs ys : List Char) :
    parseLoop acc (xs ++ ys) =
      (parseLoop acc xs).bind (fun a => parseLoop a ys) := by
  induction xs generalizing acc with
  | nil => simp [parseLoop]
  | cons c cs ih =>
    simp only [List.cons_append, parseLoop]
    cases digitVal c with
    | none => simp
    | some v => simp [ih]

theorem digitVal_digitChar {k : Nat} (h : k < 10) :
    digitVal (digitChar k) = some k := by
  interval_cases k <;> rfl

theorem toDecimal_ne_nil {fuel n : Nat} (h : 0 < fuel) : toDecimal fuel n ≠ [] := by
  cases fuel with
  | zero => omega
  | succ fuel =>
    simp only [toDecimal]
    split
    · simp
    · simp

theorem parseLoop_toDecimal :
    ∀ (fuel n acc : Nat), n < fuel →
      parseLoop acc (toDecimal fuel n) =
        some (acc * 10 ^ (toDecimal fuel n).length + n) := by
  intro fuel
  induction fuel with
  | zero => omega
  | succ fuel ih =>
    intro n acc hn
    by_cases h10 : n < 10
    · simp [toDecimal, h10, parseLoop, digitVal_digitChar h10]
    · have hdiv : n / 10 < n := Nat.div_lt_self (by omega) (by omega)
      have hfuel : n / 10 < fuel := by omega
      have hmod : n % 10 < 10 := Nat.mod_lt _ (by omega)
      simp only [toDecimal, h10, if_false]
      rw [parseLoop_append, ih (n / 10) acc hfuel]
      simp only [Option.some_bind, parseLoop, digitVal_digitChar hmod,
        List.length_append, List.length_cons, List.length_nil]
      congr 1
      have hdm : n / 10 * 10 + n % 10 = n := by omega
      calc (acc * 10 ^ (toDecimal fuel (n / 10)).length + n / 10) * 10 + n % 10
          = acc * (10 ^ (toDecimal fuel (n / 10)).length * 10) +
              (n / 10 * 10 + n % 10) := by ring
        _ = acc * 10 ^ ((toDecimal fuel (n / 10)).length + 1) + n := by
              rw [hdm, pow_succ]

theorem parseRFC3339Nano_format (t : Nat) :
    parseRFC3339Nano (formatRFC3339Nano t) = some t := by
  have hne : toDecimal (t + 1) t ≠ [] := toDecimal_ne_nil (by omega)
  have hparse := parseLoop_toDecimal (t + 1) t 0 (by omega)
  simp only [Nat.zero_mul, Nat.zero_add] at hparse
  unfold formatRFC3339Nano parseRFC3339Nano
  cases hL : toDecimal (t + 1) t with
  | nil => exact absurd hL hne
  | cons c cs =>
    rw [hL] at hparse
    exact hparse

/-! ### Lemmas about the create path -/

/-- Normal form of a create on an absent key: the single record written,
holding the URL, metadata, and the TTL only when strictly positive. -/
theorem CreateShortURL_absent (st : Store) (now : Nat) (code u : String) (ttl : Int)
    (h : Store.lookup st (shortURLKey code) = none) :
    CreateShortURL st now code u ttl =
      (Except.ok (),
       st.update (shortURLKey code)
         ⟨[("url", u), ("created_at", formatRFC3339Nano now), ("visits", "0")],
          if 0 < ttl then some ttl else none⟩) := by
  by_cases hp : 0 < ttl
  · simp [CreateShortURL, hsetnx, hset, expireCmd, h, hp,
      Store.lookup_update_self, Store.update_update, hashSet]
    rw [if_neg (by omega : ¬ttl ≤ 0)]
  · simp [CreateShortURL, hsetnx, hset, expireCmd, h, hp,
      Store.lookup_update_self, Store.update_update, hashSet]

/-- Normal form of a create on a key that exists but lacks the `url`
field (the documented partial-creation state): the create still wins the
HSETNX and repairs nothing else. -/
theorem CreateShortURL_field_absent (st : Store) (now : Nat) (code u : String) (ttl : Int)
    {r : RKey} (hl : Store.lookup st (shortURLKey code) = some r)
    (hf : hashGet r.hash "url" = none) :
    CreateShortURL st now code u ttl =
      (Except.ok (),
       st.update (shortURLKey code)
         ⟨hashSet (hashSet (hashSet r.hash "url" u)
            "created_at" (formatRFC3339Nano now)) "visits" "0",
          if 0 < ttl then some ttl else r.ttl⟩) := by
  by_cases hp : 0 < ttl
  · simp [CreateShortURL, hsetnx, hset, expireCmd, hl, hf, hp,
      Store.lookup_update_self, Store.update_update]
    rw [if_neg (by omega : ¬ttl ≤ 0)]
  · simp [CreateShortURL, hsetnx, hset, expireCmd, hl, hf, hp,
      Store.lookup_update_self, Store.update_update]

/-- A create against a key whose `url` field is already set fails with
the conflict sentinel and does not touch the store at all. -/
theorem create_conflict_of_url (st : Store) (now : Nat) (code u : String) (ttl : Int)
    {v : String} (h : hget st (shortURLKey code) "url" = some v) :
    CreateShortURL st now code u ttl = (Except.error SvcError.conflict, st) := by
  unfold hget at h
  cases hl : Store.lookup st (shortURLKey code) with
  | none => rw [hl] at h; cases h
  | some r =>
    rw [hl] at h
    replace h : hashGet r.hash "url" = some v := h
    simp [CreateShortURL, hsetnx, hl, h]

/-- A successful create always leaves the `url` field set to its payload. -/
theorem hget_url_of_create_ok {st st₁ : Store} {now : Nat} {code u : String} {ttl : Int}
    (h : CreateShortURL st now code u ttl = (Except.ok (), st₁)) :
    hget st₁ (shortURLKey code) "url" = some u := by
  cases hl : Store.lookup st (shortURLKey code) with
  | none =>
    rw [CreateShortURL_absent st now code u ttl hl] at h
    obtain ⟨-, rfl⟩ := Prod.mk.injEq .. |>.mp h
    simp [hget, Store.lookup_update_self, hashGet]
  | some r =>
    cases hf : hashGet r.hash "url" with
    | some v =>
      rw [create_conflict_of_url st now code u ttl
        (by unfold hget; rw [hl]; exact hf)] at h
      cases h
    | none =>
      rw [CreateShortURL_field_absent st now code u ttl hl hf] at h
      obtain ⟨-, rfl⟩ := Prod.mk.injEq .. |>.mp h
      have h1 : ("visits" : String) ≠ "url" := by decide
      have h2 : ("created_at" : String) ≠ "url" := by decide
      simp only [hget, Store.lookup_update_self]
      rw [hashGet_hashSet_ne _ h1 _, hashGet_hashSet_ne _ h2 _, hashGet_hashSet_self]

/-! ### Claim C1 -/

/-- C1: once `createIfAbsent` has succeeded for a code, every subsequent
create for the same code — whatever its URL payload or TTL — fails with
`ConflictError` and returns the store unchanged, so the existing record
(url, created_at, visits, expiry) is untouched and all later creates keep
failing the same way. -/
theorem createIfAbsent_rejects_after_success
    {st st₁ : Store} {now : Nat} {code u : String} {ttl : Int}
    (h : CreateShortURL st now code u ttl = (Except.ok (), st₁)) :
    ∀ (now₂ : Nat) (u₂ : String) (ttl₂ : Int),
      CreateShortURL st₁ now₂ code u₂ ttl₂ = (Except.error SvcError.conflict, st₁) := by
  intro now₂ u₂ ttl₂
  exact create_conflict_of_url st₁ now₂ code u₂ ttl₂ (hget_url_of_create_ok h)

/-- Witness for C1 at a concrete code and differing payloads. -/
theorem createIfAbsent_rejects_after_success_witness :
    CreateShortURL (CreateShortURL Store.empty 0 "abc" "https://a" 0).2 1 "abc" "https://b" 5 =
      (Except.error SvcError.conflict, (CreateShortURL Store.empty 0 "abc" "https://a" 0).2) :=
  createIfAbsent_rejects_after_success
    (show CreateShortURL Store.empty 0 "abc" "https://a" 0 =
        (Except.ok (), (CreateShortURL Store.empty 0 "abc" "https://a" 0).2) from rfl)
    1 "https://b" 5

/-! ### Claim C5 -/

/-- C5: `incrementVisits` on a code with no record returns the not-found
sentinel and returns the store unchanged — in particular it never creates
a record for that code. -/
theorem incrementVisits_absent_notFound {st : Store} {code : String}
    (h : Store.lookup st (shortURLKey code) = none) :
    IncrementVisits st code = (Except.error SvcError.notFound, st) := by
  simp [IncrementVisits, ShortCodeExists, existsCmd, h]

/-- Witness for C5 on the empty store. -/
theorem incrementVisits_absent_notFound_witness :
    IncrementVisits Store.empty "zzz9999" = (Except.error SvcError.notFound, Store.empty) :=
  incrementVisits_absent_notFound
    (show Store.lookup Store.empty (shortURLKey "zzz9999") = none from rfl)

/-! ### Claim C7 -/

/-- C7: the end-to-end scenario from the empty store — create
`("abc1234", "https://example.com", 1h)` succeeds; re-creating the same
code fails with `ConflictError` (store untouched); `getLongURL` returns
the original URL; `incrementVisits` returns 1; `getStats` shows one visit
and a non-null `expiresAt`; delete succeeds; and `getLongURL` afterwards
fails with `NotFoundError`. -/
theorem scenario_create_increment_stats_delete :
    (CreateShortURL Store.empty 0 "abc1234" "https://example.com" 3600).1 = Except.ok () ∧
    CreateShortURL (CreateShortURL Store.empty 0 "abc1234" "https://example.com" 3600).2
        1 "abc1234" "https://other.example" 60 =
      (Except.error SvcError.conflict,
       (CreateShortURL Store.empty 0 "abc1234" "https://example.com" 3600).2) ∧
    GetLongURL (CreateShortURL Store.empty 0 "abc1234" "https://example.com" 3600).2
        "abc1234" = Except.ok "https://example.com" ∧
    (IncrementVisits (CreateShortURL Store.empty 0 "abc1234" "https://example.com" 3600).2
        "abc1234").1 = Except.ok 1 ∧
    GetStats (IncrementVisits
        (CreateShortURL Store.empty 0 "abc1234" "https://example.com" 3600).2 "abc1234").2
        2 "abc1234" =
      Except.ok ⟨"abc1234", "https://example.com", 0, 1, some 3602⟩ ∧
    (DeleteShortURL (IncrementVisits
        (CreateShortURL Store.empty 0 "abc1234" "https://example.com" 3600).2 "abc1234").2
        "abc1234").1 = Except.ok () ∧
    GetLongURL (DeleteShortURL (IncrementVisits
        (CreateShortURL Store.empty 0 "abc1234" "https://example.com" 3600).2 "abc1234").2
        "abc1234").2 "abc1234" = Except.error SvcError.notFound :=
  ⟨rfl, rfl, rfl, rfl, rfl, rfl, rfl⟩

/-! ### Claim C6 -/

theorem parseInt_zero : parseInt "0" = some 0 := rfl

/-- Whenever `GetStats` succeeds, its `expiresAt` is derived from the
remaining TTL at read time: `now + TTL` when that TTL is strictly
positive, `null` otherwise. -/
theorem getStats_expiresAt_formula (st : Store) (now : Nat) (code : String) (s : URLStats)
    (h : GetStats st now code = Except.ok s) :
    s.expiresAt =
      if ttlCmd st (shortURLKey code) > 0
      then some ((now : Int) + ttlCmd st (shortURLKey code)) else none := by
  simp only [GetStats] at h
  split at h
  · simp at h
  · split at h
    · simp at h
    · split at h
      · simp at h
      · injection h with h
        subst h
        rfl

/-- Explicit stats of a freshly created record: zero visits, the creation
timestamp, and `expiresAt` populated exactly when the creation TTL was
strictly positive. -/
theorem getStats_after_create (st : Store) (now₁ now₂ : Nat) (code u : String) (ttl : Int)
    (h : Store.lookup st (shortURLKey code) = none) :
    GetStats (CreateShortURL st now₁ code u ttl).2 now₂ code =
      Except.ok ⟨code, u, now₁, 0,
        if 0 < ttl then some ((now₂ : Int) + ttl) else none⟩ := by
  have hst : (CreateShortURL st now₁ code u ttl).2 =
      st.update (shortURLKey code)
        ⟨[("url", u), ("created_at", formatRFC3339Nano now₁), ("visits", "0")],
         if 0 < ttl then some ttl else none⟩ :=
    congrArg Prod.snd (CreateShortURL_absent st now₁ code u ttl h)
  rw [hst]
  simp only [GetStats, hgetallCmd, ttlCmd, Store.lookup_update_self]
  by_cases hp : 0 < ttl
  · simp [hashGet, parseRFC3339Nano_format, parseInt_zero, hp]
  · simp [hashGet, parseRFC3339Nano_format, parseInt_zero, hp]

/-- C6: `getStats` computes `expiresAt` as `now + remaining TTL` at read
time (first conjunct, for any record it can read); on a record created
with a strictly positive TTL it returns a non-null `expiresAt` strictly
greater than `now`, and on a record created with no TTL it returns a null
`expiresAt` (second conjunct). -/
theorem getStats_expiresAt_from_ttl :
    (∀ (st : Store) (now : Nat) (code : String) (s : URLStats),
       GetStats st now code = Except.ok s →
       s.expiresAt =
         if ttlCmd st (shortURLKey code) > 0
         then some ((now : Int) + ttlCmd st (shortURLKey code)) else none) ∧
    (∀ (st : Store) (now₁ now₂ : Nat) (code u : String) (ttl : Int),
       Store.lookup st (shortURLKey code) = none →
       ((0 < ttl →
           GetStats (CreateShortURL st now₁ code u ttl).2 now₂ code =
             Except.ok ⟨code, u, now₁, 0, some ((now₂ : Int) + ttl)⟩ ∧
           (now₂ : Int) < (now₂ : Int) + ttl) ∧
        (ttl ≤ 0 →
           GetStats (CreateShortURL st now₁ code u ttl).2 now₂ code =
             Except.ok ⟨code, u, now₁, 0, none⟩))) := by
  refine ⟨getStats_expiresAt_formula, fun st now₁ now₂ code u ttl h => ⟨?_, ?_⟩⟩
  · intro hp
    refine ⟨?_, by omega⟩
    rw [getStats_after_create st now₁ now₂ code u ttl h, if_pos hp]
  · intro hnp
    rw [getStats_after_create st now₁ now₂ code u ttl h,
      if_neg (by omega : ¬0 < ttl)]

/-- Witness for C6: a record created at time 0 with TTL 3600, read at
time 5, reports `expiresAt = 3605`. -/
theorem getStats_expiresAt_from_ttl_witness :
    GetStats (CreateShortURL Store.empty 0 "code1" "https://e.com" 3600).2 5 "code1" =
      Except.ok ⟨"code1", "https://e.com", 0, 0, some 3605⟩ :=
  ((getStats_expiresAt_from_ttl.2 Store.empty 0 5 "code1" "https://e.com" 3600
      (show Store.lookup Store.empty (shortURLKey "code1") = none from rfl)).1
    (by decide)).1

/-! ### Claim C2 -/

/-- C2: for a non-empty custom alias that matches the pattern, `resolve`
returns the alias unchanged when the existence check reports it absent,
and fails with `ConflictError` when the check reports it present. -/
theorem resolve_valid_alias {a : String} (hne : a ≠ "")
    (hpat : aliasPattern a = true) (st : Store) (d : Nat → Fin 62) :
    (ShortCodeExists st a = false → resolveShortCode st a d = Except.ok a) ∧
    (ShortCodeExists st a = true →
       resolveShortCode st a d = Except.error ResolveError.conflictError) := by
  constructor <;> intro hex <;> simp [resolveShortCode, hne, hpat, hex]

/-- Witness for C2: the valid alias `wxyz` is returned unchanged on the
empty store. -/
theorem resolve_valid_alias_witness :
    resolveShortCode Store.empty "wxyz" (fun _ => (0 : Fin 62)) = Except.ok "wxyz" :=
  (resolve_valid_alias (by decide) (by decide) Store.empty (fun _ => (0 : Fin 62))).1
    (show ShortCodeExists Store.empty "wxyz" = false from rfl)

/-! ### Claim C8 -/

/-- C8: a non-empty alias that fails the pattern makes `resolve` fail
with `ValidationError` on every store and every random stream — the
result does not depend on the store, so the store is never queried on
this path. -/
theorem resolve_invalid_alias {a : String} (hne : a ≠ "")
    (hpat : aliasPattern a = false) :
    ∀ (st : Store) (d : Nat → Fin 62),
      resolveShortCode st a d = Except.error ResolveError.validationError := by
  intro st d
  simp [resolveShortCode, hne, hpat]

/-- Witness for C8: the two-character alias `ab` is rejected. -/
theorem resolve_invalid_alias_witness :
    resolveShortCode Store.empty "ab" (fun _ => (0 : Fin 62)) =
      Except.error ResolveError.validationError :=
  resolve_invalid_alias (by decide) (by decide) Store.empty (fun _ => (0 : Fin 62))

/-! ### Claim C3 -/

/-- C3: a generated code has exactly 7 characters; the character at each
position is the alphabet symbol at the index drawn for that position —
the uniform draw over the full 62-symbol range is used directly, with no
modulo reduction or other arithmetic; every character belongs to the
62-symbol alphabet, and the alphabet has no duplicates, so the direct
indexing carries the uniform draw to a uniform character. -/
theorem generateShortCode_spec (d : Nat → Fin 62) (off : Nat) :
    (generateShortCode shortCodeLength d off).length = 7 ∧
    (∀ i, i < 7 →
       (generateShortCode shortCodeLength d off).data.getD i ' ' =
         alphabet.data.getD (d (off + i)).val ' ') ∧
    (∀ c ∈ (generateShortCode shortCodeLength d off).data, c ∈ alphabet.data) ∧
    alphabet.data.length = 62 ∧ alphabet.data.Nodup := by
  refine ⟨?_, ?_, ?_, rfl, by decide⟩
  · have hlen : (generateShortCode shortCodeLength d off).length =
        ((List.range shortCodeLength).map
          (fun i => alphabet.data.getD (d (off + i)).val ' ')).length := rfl
    rw [hlen]
    simp [shortCodeLength]
  · intro i hi
    simp [generateShortCode, shortCodeLength, List.getD_eq_getElem?_getD,
      List.getElem?_map, List.getElem?_range, hi]
  · intro c hc
    simp only [generateShortCode, shortCodeLength, String.mk, List.mem_map,
      List.mem_range] at hc
    obtain ⟨i, -, rfl⟩ := hc
    have hv : (d (off + i)).val < alphabet.data.length := (d (off + i)).isLt
    rw [List.getD_eq_getElem alphabet.data ' ' hv]
    exact List.getElem_mem hv

/-- Witness for C3 at the constant-zero draw stream. -/
theorem generateShortCode_spec_witness :
    (generateShortCode shortCodeLength (fun _ => (0 : Fin 62)) 0).length = 7 ∧
    (generateShortCode shortCodeLength (fun _ => (0 : Fin 62)) 0).data.getD 0 ' ' =
      alphabet.data.getD 0 ' ' :=
  ⟨(generateShortCode_spec (fun _ => (0 : Fin 62)) 0).1,
   (generateShortCode_spec (fun _ => (0 : Fin 62)) 0).2.1 0 (by decide)⟩

/-! ### Claim C4 -/

/-- Code generation only reads the draws of its own window. -/
theorem generateShortCode_congr {d d' : Nat → Fin 62} {len off : Nat}
    (h : ∀ j, j < len → d (off + j) = d' (off + j)) :
    generateShortCode len d off = generateShortCode len d' off := by
  unfold generateShortCode
  congr 1
  apply List.map_congr_left
  intro i hi
  rw [h i (List.mem_range.mp hi)]

/-- When every candidate of the remaining attempts collides, the loop
runs out of attempts and signals exhaustion. -/
theorem resolveLoop_exhausted (st : Store) (d : Nat → Fin 62) :
    ∀ (fuel i : Nat),
      (∀ j, j < fuel →
        ShortCodeExists st
          (generateShortCode shortCodeLength d (shortCodeLength * (i + j))) = true) →
      resolveLoop st d i fuel = Except.error ResolveError.exhaustedError := by
  intro fuel
  induction fuel with
  | zero => intro i _; rfl
  | succ fuel ih =>
    intro i h
    have h0 := h 0 (by omega)
    rw [Nat.add_zero] at h0
    simp only [resolveLoop, h0, if_true]
    apply ih
    intro j hj
    have harg : i + 1 + j = i + (j + 1) := by omega
    rw [harg]
    exact h (j + 1) (by omega)

/-- C4: when the existence check reports all ten generated candidates as
present, `resolve` on an empty alias fails with `ExhaustedError`; and the
outcome depends only on the first 70 draws (10 attempts of 7 characters),
so no more than 10 generation attempts are ever consulted. -/
theorem resolve_exhausted_after_ten_collisions (st : Store) (d : Nat → Fin 62)
    (hall : ∀ i, i < 10 →
      ShortCodeExists st
        (generateShortCode shortCodeLength d (shortCodeLength * i)) = true) :
    resolveShortCode st "" d = Except.error ResolveError.exhaustedError ∧
    ∀ d' : Nat → Fin 62, (∀ j, j < 70 → d j = d' j) →
      resolveShortCode st "" d' = Except.error ResolveError.exhaustedError := by
  constructor
  · simp only [resolveShortCode, maxCodeAttempts, bne_self_eq_false,
      Bool.false_eq_true, if_false]
    apply resolveLoop_exhausted
    intro j hj
    rw [Nat.zero_add]
    exact hall j hj
  · intro d' hagree
    simp only [resolveShortCode, maxCodeAttempts, bne_self_eq_false,
      Bool.false_eq_true, if_false]
    apply resolveLoop_exhausted
    intro j hj
    rw [Nat.zero_add]
    have hcand : generateShortCode shortCodeLength d' (shortCodeLength * j) =
        generateShortCode shortCodeLength d (shortCodeLength * j) := by
      apply generateShortCode_congr
      intro i hi
      have : shortCodeLength * j + i < 70 := by
        simp only [shortCodeLength] at hi ⊢
        omega
      exact (hagree _ this).symm
    rw [hcand]
    exact hall j hj

/-- Witness for C4: with the constant-zero stream every candidate is
`0000000`, and a store already holding that code exhausts all attempts. -/
theorem resolve_exhausted_after_ten_collisions_witness :
    resolveShortCode ⟨[("short:url:0000000", ⟨[("url", "https://a")], none⟩)]⟩ ""
      (fun _ => (0 : Fin 62)) = Except.error ResolveError.exhaustedError :=
  (resolve_exhausted_after_ten_collisions
      ⟨[("short:url:0000000", ⟨[("url", "https://a")], none⟩)]⟩
      (fun _ => (0 : Fin 62)) (by decide)).1

/-! ### Claim C9: concurrent creates at Redis-command granularity -/

/-- The atomic Redis commands one `CreateShortURL` call issues, used to
model arbitrary interleavings of concurrent creates for one code: the
decisive HSETNX of the `url` field, the metadata HSET, and the EXPIRE
(which the code only issues with a strictly positive TTL). -/
inductive CreateStep where
  | setnxUrl (url : String)
  | setMeta (createdAt : String)
  | setExpire (ttl : Int)
deriving DecidableEq, Repr

/-- Is this the decisive HSETNX step of a call? -/
def isSetnx : CreateStep → Bool
  | CreateStep.setnxUrl _ => true
  | _ => false

/-- A step the create code can actually emit: EXPIRE only with a
strictly positive duration (`if ttl > 0` guards it). -/
def stepOk : CreateStep → Bool
  | CreateStep.setExpire t => decide (0 < t)
  | _ => true

/-- Run an arbitrary interleaving of create steps against the store,
collecting the reply each HSETNX observed (`true`: that call's create
succeeds; `false`: that call returns `ConflictError`). -/
def runCreateSteps (st : Store) (key : String) : List CreateStep → List Bool × Store
  | [] => ([], st)
  | CreateStep.setnxUrl u :: rest =>
    let p := hsetnx st key "url" u
    let q := runCreateSteps p.2 key rest
    (p.1 :: q.1, q.2)
  | CreateStep.setMeta ca :: rest =>
    runCreateSteps (hset st key [("created_at", ca), ("visits", "0")]) key rest
  | CreateStep.setExpire t :: rest =>
    runCreateSteps (expireCmd st key t).2 key rest

/-- HSETNX against a key whose field is already set replies `false` and
leaves the store untouched. -/
theorem hsetnx_present {st : Store} {key f v : String} (u : String)
    (h : hget st key f = some v) : hsetnx st key f u = (false, st) := by
  unfold hget at h
  cases hl : st.lookup key with
  | none => rw [hl] at h; cases h
  | some r =>
    rw [hl] at h
    replace h : hashGet r.hash f = some v := h
    simp [hsetnx, hl, h]

/-- HSETNX against a key whose field is absent replies `true` and sets
the field. -/
theorem hsetnx_absent {st : Store} {key f : String} (u : String)
    (h : hget st key f = none) :
    (hsetnx st key f u).1 = true ∧ hget (hsetnx st key f u).2 key f = some u := by
  unfold hget at h
  cases hl : st.lookup key with
  | none =>
    simp [hsetnx, hl, hget, Store.lookup_update_self, hashGet]
  | some r =>
    rw [hl] at h
    replace h : hashGet r.hash f = none := h
    simp [hsetnx, hl, h, hget, Store.lookup_update_self, hashGet_hashSet_self]

/-- A `false` HSETNX reply means the store was left untouched. -/
theorem hsetnx_false {st : Store} {key f u : String}
    (h : (hsetnx st key f u).1 = false) : hsetnx st key f u = (false, st) := by
  cases hl : st.lookup key with
  | none => simp [hsetnx, hl] at h
  | some r =>
    cases hf : hashGet r.hash f with
    | none => simp [hsetnx, hl, hf] at h
    | some v => simp [hsetnx, hl, hf]

/-- The metadata HSET never touches the `url` field. -/
theorem hget_url_hset_meta (st : Store) (key ca : String) :
    hget (hset st key [("created_at", ca), ("visits", "0")]) key "url" =
      hget st key "url" := by
  have h1 : ("visits" : String) ≠ "url" := by decide
  have h2 : ("created_at" : String) ≠ "url" := by decide
  cases hl : st.lookup key with
  | none =>
    simp [hset, hl, hget, Store.lookup_update_self, hashGet, hashSet]
  | some r =>
    simp only [hset, hl, Option.getD_some, List.foldl]
    simp only [hget, Store.lookup_update_self, hl]
    rw [hashGet_hashSet_ne _ h1 _, hashGet_hashSet_ne _ h2 _]

/-- EXPIRE with a strictly positive duration never touches the hash. -/
theorem hget_url_expire_pos (st : Store) (key : String) {t : Int} (ht : 0 < t) :
    hget (expireCmd st key t).2 key "url" = hget st key "url" := by
  cases hl : st.lookup key with
  | none => simp [expireCmd, hl]
  | some r =>
    simp only [expireCmd, hl, if_neg (by omega : ¬t ≤ 0)]
    simp [hget, Store.lookup_update_self, hl]

/-- Once the `url` field is set, every later HSETNX in the interleaving
replies `false`: no further call can win. -/
theorem runCreateSteps_present {key : String} :
    ∀ (steps : List CreateStep) (st : Store) (v : String),
      steps.all stepOk = true →
      hget st key "url" = some v →
      (runCreateSteps st key steps).1.count true = 0 ∧
      (runCreateSteps st key steps).1.length = steps.countP (fun s => isSetnx s) := by
  intro steps
  induction steps with
  | nil => intro st v _ _; simp [runCreateSteps]
  | cons step rest ih =>
    intro st v hok hv
    rw [List.all_cons, Bool.and_eq_true] at hok
    cases step with
    | setnxUrl u =>
      rw [runCreateSteps]
      simp only [hsetnx_present u hv]
      have hrest := ih st v hok.2 hv
      simp [List.count_cons, List.countP_cons, hrest.1, hrest.2, isSetnx]
    | setMeta ca =>
      rw [runCreateSteps]
      have hv' : hget (hset st key [("created_at", ca), ("visits", "0")]) key "url" =
          some v := by rw [hget_url_hset_meta]; exact hv
      have hrest := ih _ v hok.2 hv'
      simp [List.countP_cons, hrest.1, hrest.2, isSetnx]
    | setExpire t =>
      have ht : 0 < t := by
        have := hok.1
        simp [stepOk] at this
        exact this
      rw [runCreateSteps]
      have hv' : hget (expireCmd st key t).2 key "url" = some v := by
        rw [hget_url_expire_pos st key ht]; exact hv
      have hrest := ih _ v hok.2 hv'
      simp [List.countP_cons, hrest.1, hrest.2, isSetnx]

/-- Starting from a store where the `url` field of `key` is absent, any
well-formed interleaving containing at least one HSETNX has exactly one
`true` HSETNX reply. -/
theorem runCreateSteps_absent {key : String} :
    ∀ (steps : List CreateStep) (st : Store),
      steps.all stepOk = true →
      hget st key "url" = none →
      1 ≤ steps.countP (fun s => isSetnx s) →
      (runCreateSteps st key steps).1.count true = 1 ∧
      (runCreateSteps st key steps).1.length = steps.countP (fun s => isSetnx s) := by
  intro steps
  induction steps with
  | nil => intro st _ _ hone; simp at hone
  | cons step rest ih =>
    intro st hok habs hone
    rw [List.all_cons, Bool.and_eq_true] at hok
    cases step with
    | setnxUrl u =>
      have hfst := (hsetnx_absent u habs).1
      have hsnd := (hsetnx_absent u habs).2
      have hrest := runCreateSteps_present rest (hsetnx st key "url" u).2 u hok.2 hsnd
      rw [runCreateSteps]
      simp [hfst, List.count_cons, List.countP_cons, hrest.1, hrest.2, isSetnx]
    | setMeta ca =>
      have habs' : hget (hset st key [("created_at", ca), ("visits", "0")]) key "url" =
          none := by rw [hget_url_hset_meta]; exact habs
      have hone' : 1 ≤ rest.countP (fun s => isSetnx s) := by
        simpa [List.countP_cons, isSetnx] using hone
      have hrest := ih _ hok.2 habs' hone'
      rw [runCreateSteps]
      simp [List.countP_cons, isSetnx, hrest.1, hrest.2]
    | setExpire t =>
      have ht : 0 < t := by
        have := hok.1
        simp [stepOk] at this
        exact this
      have habs' : hget (expireCmd st key t).2 key "url" = none := by
        rw [hget_url_expire_pos st key ht]; exact habs
      have hone' : 1 ≤ rest.countP (fun s => isSetnx s) := by
        simpa [List.countP_cons, isSetnx] using hone
      have hrest := ih _ hok.2 habs' hone'
      rw [runCreateSteps]
      simp [List.countP_cons, isSetnx, hrest.1, hrest.2]

/-- C9: in any interleaving of the Redis commands of concurrent
`createIfAbsent` calls for one code — each call contributing its decisive
HSETNX (and only steps the code can emit) — exactly one HSETNX reply is
`true`, so exactly one call succeeds; every other call observes `false`,
and by the last conjunct a call whose HSETNX replied `false` returns
`ConflictError` with the store untouched. -/
theorem concurrent_creates_one_winner (st : Store) (key : String)
    (steps : List CreateStep)
    (habs : hget st key "url" = none)
    (hok : steps.all stepOk = true)
    (hone : 1 ≤ steps.countP (fun s => isSetnx s)) :
    (runCreateSteps st key steps).1.count true = 1 ∧
    (runCreateSteps st key steps).1.length = steps.countP (fun s => isSetnx s) ∧
    (∀ (st' : Store) (now : Nat) (code u : String) (ttl : Int),
       (hsetnx st' (shortURLKey code) "url" u).1 = false →
       CreateShortURL st' now code u ttl = (Except.error SvcError.conflict, st')) := by
  refine ⟨(runCreateSteps_absent steps st hok habs hone).1,
    (runCreateSteps_absent steps st hok habs hone).2, ?_⟩
  intro st' now code u ttl h
  simp [CreateShortURL, hsetnx_false h]

/-- Witness for C9: two interleaved creates for one key; one HSETNX
reply is `true`. -/
theorem concurrent_creates_one_winner_witness :
    (runCreateSteps Store.empty "short:url:k0de"
      [CreateStep.setnxUrl "https://a", CreateStep.setMeta "0",
       CreateStep.setnxUrl "https://b", CreateStep.setExpire 5]).1.count true = 1 :=
  (concurrent_creates_one_winner Store.empty "short:url:k0de"
    [CreateStep.setnxUrl "https://a", CreateStep.setMeta "0",
     CreateStep.setnxUrl "https://b", CreateStep.setExpire 5]
    rfl (by decide) (by decide)).1

/-! ### Claim C10 -/

/-- C10: on a record in the documented partial-creation state — `url`
field present but `created_at` missing or unparseable — `getStats` fails
with the wrapped parse error (a `StoreError`, not `NotFoundError`), while
`getLongURL` on the same code still succeeds with the stored URL. -/
theorem getStats_partial_record {st : Store} {code u : String} {r : RKey}
    (hl : Store.lookup st (shortURLKey code) = some r)
    (hu : hashGet r.hash "url" = some u)
    (hc : parseRFC3339Nano ((hashGet r.hash "created_at").getD "") = none) :
    (∀ now : Nat, GetStats st now code =
       Except.error (SvcError.storeError "parse created_at")) ∧
    GetLongURL st code = Except.ok u := by
  constructor
  · intro now
    have hne : r.hash ≠ [] := by
      intro h0
      rw [h0] at hu
      cases hu
    have hlen : (r.hash.length == 0) = false := by
      cases hx : r.hash with
      | nil => exact absurd hx hne
      | cons a t => simp
    simp only [GetStats, hgetallCmd, hl, Option.getD_some]
    simp [hlen, hc]
  · simp [GetLongURL, hget, hl, hu]

/-- Witness for C10: a key holding only the `url` field. -/
theorem getStats_partial_record_witness :
    GetStats ⟨[("short:url:abcd", ⟨[("url", "https://x.com")], none⟩)]⟩ 3 "abcd" =
      Except.error (SvcError.storeError "parse created_at") ∧
    GetLongURL ⟨[("short:url:abcd", ⟨[("url", "https://x.com")], none⟩)]⟩ "abcd" =
      Except.ok "https://x.com" :=
  ⟨(getStats_partial_record
      (show Store.lookup ⟨[("short:url:abcd", ⟨[("url", "https://x.com")], none⟩)]⟩
          (shortURLKey "abcd") = some ⟨[("url", "https://x.com")], none⟩ from rfl)
      rfl rfl).1 3,
   (getStats_partial_record
      (show Store.lookup ⟨[("short:url:abcd", ⟨[("url", "https://x.com")], none⟩)]⟩
          (shortURLKey "abcd") = some ⟨[("url", "https://x.com")], none⟩ from rfl)
      rfl rfl).2⟩

end UrlShortner
